import Mathlib

/-!
Verification of the Chargily Pay JavaScript client.

A shallow embedding of the `@chargily/chargily-pay` library
(`src/classes/client.ts` plus the standalone webhook signature verifier)
together with proofs of the specified properties.

Bytes are modelled as `Nat` values (`< 256` wherever they are produced by
the code), byte sequences as `List Nat`, JavaScript strings as Lean
`String`, and machine 32-bit words as `Nat` reduced modulo `2 ^ 32`
at every operation that can overflow.  Fallible code returns
`Except String`; the thrown `Error` message is the `.error` payload.
-/

/-! ## 32-bit word primitives used by SHA-256 -/

/-- Truncation to a 32-bit word. -/
def w32 (n : Nat) : Nat := n % 4294967296

/-- Right rotation of a 32-bit word by `n` places. -/
def rotr32 (n x : Nat) : Nat := w32 ((x >>> n) ||| (x <<< (32 - n)))

/-- The SHA-256 `Ch` function. -/
def chF (e f g : Nat) : Nat := (e &&& f) ^^^ ((e ^^^ 4294967295) &&& g)

/-- The SHA-256 `Maj` function. -/
def majF (a b c : Nat) : Nat := (a &&& b) ^^^ (a &&& c) ^^^ (b &&& c)

/-- The SHA-256 big sigma-0 function. -/
def bigSigma0 (x : Nat) : Nat := rotr32 2 x ^^^ rotr32 13 x ^^^ rotr32 22 x

/-- The SHA-256 big sigma-1 function. -/
def bigSigma1 (x : Nat) : Nat := rotr32 6 x ^^^ rotr32 11 x ^^^ rotr32 25 x

/-- The SHA-256 small sigma-0 function. -/
def smallSigma0 (x : Nat) : Nat := rotr32 7 x ^^^ rotr32 18 x ^^^ (x >>> 3)

/-- The SHA-256 small sigma-1 function. -/
def smallSigma1 (x : Nat) : Nat := rotr32 17 x ^^^ rotr32 19 x ^^^ (x >>> 10)

/-- The 64 SHA-256 round constants (FIPS 180-4), written in decimal. -/
def sha256K : List Nat :=
  [1116352408, 1899447441, 3049323471, 3921009573, 961987163,
   1508970993, 2453635748, 2870763221, 3624381080, 310598401,
   607225278, 1426881987, 1925078388, 2162078206, 2614888103,
   3248222580, 3835390401, 4022224774, 264347078, 604807628,
   770255983, 1249150122, 1555081692, 1996064986, 2554220882,
   2821834349, 2952996808, 3210313671, 3336571891, 3584528711,
   113926993, 338241895, 666307205, 773529912, 1294757372,
   1396182291, 1695183700, 1986661051, 2177026350, 2456956037,
   2730485921, 2820302411, 3259730800, 3345764771, 3516065817,
   3600352804, 4094571909, 275423344, 430227734, 506948616,
   659060556, 883997877, 958139571, 1322822218, 1537002063,
   1747873779, 1955562222, 2024104815, 2227730452, 2361852424,
   2428436474, 2756734187, 3204031479, 3329325298]

/-- The eight 32-bit working variables / hash words of SHA-256. -/
structure Hash8 where
  a : Nat
  b : Nat
  c : Nat
  d : Nat
  e : Nat
  f : Nat
  g : Nat
  h : Nat
deriving DecidableEq, Repr

/-- The SHA-256 initial hash value (FIPS 180-4), written in decimal. -/
def sha256Init : Hash8 :=
  ⟨1779033703, 3144134277, 1013904242, 2773480762,
   1359893119, 2600822924, 528734635, 1541459225⟩

/-- The 8-byte big-endian encoding of a message bit length. -/
def lenBytes (v : Nat) : List Nat :=
  [v / 2 ^ 56 % 256, v / 2 ^ 48 % 256, v / 2 ^ 40 % 256, v / 2 ^ 32 % 256,
   v / 2 ^ 24 % 256, v / 2 ^ 16 % 256, v / 2 ^ 8 % 256, v % 256]

/-- SHA-256 padding: `0x80`, zeros to 56 mod 64, then the bit length. -/
def padMessage (msg : List Nat) : List Nat :=
  let L := msg.length
  msg ++ [0x80] ++ List.replicate ((64 - (L + 9) % 64) % 64) 0 ++ lenBytes (8 * L)

/-- Big-endian assembly of bytes into 32-bit words, four at a time. -/
def bytesToWords : List Nat → List Nat
  | b0 :: b1 :: b2 :: b3 :: rest =>
      (b0 * 2 ^ 24 + b1 * 2 ^ 16 + b2 * 2 ^ 8 + b3) :: bytesToWords rest
  | _ => []

/-- Grouping of a word sequence into 16-word blocks. -/
def toBlocks : List Nat → List (List Nat)
  | w0 :: w1 :: w2 :: w3 :: w4 :: w5 :: w6 :: w7 ::
    w8 :: w9 :: w10 :: w11 :: w12 :: w13 :: w14 :: w15 :: rest =>
      [w0, w1, w2, w3, w4, w5, w6, w7, w8, w9, w10, w11, w12, w13, w14, w15]
        :: toBlocks rest
  | _ => []

/-- Message-schedule extension; `w` holds the schedule so far, newest first. -/
def extendSchedule : Nat → List Nat → List Nat
  | 0, w => w
  | n + 1, w =>
      extendSchedule n
        (w32 (smallSigma1 (w.getD 1 0) + w.getD 6 0 +
              smallSigma0 (w.getD 14 0) + w.getD 15 0) :: w)

/-- The 64-entry SHA-256 message schedule of a 16-word block. -/
def schedule (block : List Nat) : List Nat :=
  (extendSchedule 48 block.reverse).reverse

/-- One SHA-256 compression round; `wk` is the (schedule word, constant) pair. -/
def roundStep (st : Hash8) (wk : Nat × Nat) : Hash8 :=
  let t1 := w32 (st.h + bigSigma1 st.e + chF st.e st.f st.g + wk.2 + wk.1)
  let t2 := w32 (bigSigma0 st.a + majF st.a st.b st.c)
  ⟨w32 (t1 + t2), st.a, st.b, st.c, w32 (st.d + t1), st.e, st.f, st.g⟩

/-- SHA-256 compression of a single 16-word block into the running hash. -/
def compressBlock (st : Hash8) (block : List Nat) : Hash8 :=
  let fin := (List.zip (schedule block) sha256K).foldl roundStep st
  ⟨w32 (st.a + fin.a), w32 (st.b + fin.b), w32 (st.c + fin.c), w32 (st.d + fin.d),
   w32 (st.e + fin.e), w32 (st.f + fin.f), w32 (st.g + fin.g), w32 (st.h + fin.h)⟩

/-- Big-endian byte serialization of a 32-bit word. -/
def wordBytes (w : Nat) : List Nat :=
  [w / 2 ^ 24 % 256, w / 2 ^ 16 % 256, w / 2 ^ 8 % 256, w % 256]

/-- Serialization of the final hash state into the 32-byte digest. -/
def hashBytes (st : Hash8) : List Nat :=
  wordBytes st.a ++ wordBytes st.b ++ wordBytes st.c ++ wordBytes st.d ++
  wordBytes st.e ++ wordBytes st.f ++ wordBytes st.g ++ wordBytes st.h

/-- SHA-256 of a byte sequence (FIPS 180-4); the digest is 32 bytes. -/
def sha256 (msg : List Nat) : List Nat :=
  hashBytes ((toBlocks (bytesToWords (padMessage msg))).foldl compressBlock sha256Init)

/-- HMAC-SHA256 (RFC 2104) with a 64-byte block size, as implemented by
Node `crypto.createHmac` with algorithm `sha256`, `update(msg)`, `digest()`. -/
def hmacSha256 (key msg : List Nat) : List Nat :=
  let k0 := if 64 < key.length then sha256 key else key
  let kPad := k0 ++ List.replicate (64 - k0.length) 0
  sha256 (kPad.map (Nat.xor 0x5c) ++ sha256 (kPad.map (Nat.xor 0x36) ++ msg))

/-! ## Lowercase hex encoding (Node `Buffer.digest` in hex mode) -/

/-- The sixteen lowercase hex digits. -/
def hexDigitChars : List Char := "0123456789abcdef".data

/-- The lowercase hex digit of a nibble (`0`–`9` then `a`–`f`). -/
def hexDigit (n : Nat) : Char :=
  if n < 10 then Char.ofNat (48 + n) else Char.ofNat (87 + n)

/-- The two hex characters of one byte. -/
def byteHex (b : Nat) : List Char :=
  [hexDigit (b / 16 % 16), hexDigit (b % 16)]

/-- The hex characters of a byte sequence. -/
def hexChars : List Nat → List Char
  | [] => []
  | b :: rest => byteHex b ++ hexChars rest

/-- The lowercase hex string of a byte sequence. -/
def hexOfBytes (bs : List Nat) : String := String.mk (hexChars bs)

/-! ## UTF-8 encoding (Node `Buffer.from` in utf8 mode) -/

/-- The UTF-8 bytes of one Unicode scalar value, written with division and
remainder (the bit fields of the standard encoding are disjoint). -/
def utf8EncodeChar (c : Nat) : List Nat :=
  if c < 0x80 then [c]
  else if c < 0x800 then [0xc0 + c / 0x40, 0x80 + c % 0x40]
  else if c < 0x10000 then
    [0xe0 + c / 0x1000, 0x80 + c / 0x40 % 0x40, 0x80 + c % 0x40]
  else
    [0xf0 + c / 0x40000, 0x80 + c / 0x1000 % 0x40,
     0x80 + c / 0x40 % 0x40, 0x80 + c % 0x40]

/-- UTF-8 encoding of a character sequence. -/
def utf8Encode : List Char → List Nat
  | [] => []
  | c :: cs => utf8EncodeChar c.toNat ++ utf8Encode cs

/-- The UTF-8 bytes of a string, as `Buffer.from` in utf8 mode produces them. -/
def strBytes (s : String) : List Nat := utf8Encode s.data

/-! ## The webhook signature verifier (`verifySignature`) -/

/-- The model of `crypto.timingSafeEqual`: a constant-time byte comparison that ORs
together the XORs of all byte pairs and checks the accumulator at the end. -/
def timingSafeEqual (a b : List Nat) : Bool :=
  ((List.zipWith Nat.xor a b).foldl Nat.lor 0) == 0

/-- The signature prefix of the source, the empty-string constant. -/
def sigPrefix : String := ""

/-- The local variable `computedSignature` of the source: the hex HMAC-SHA256 of
the payload under the secret key. -/
def computedSignature (payload : List Nat) (secretKey : String) : String :=
  hexOfBytes (hmacSha256 (strBytes secretKey) payload)

deriving instance DecidableEq for Except

/-- Instrumented outcome of one `verifySignature` invocation: the returned
value or thrown error, the `console.log` lines emitted, and the number of
HMAC digests computed. -/
structure VerifyOutcome where
  result : Except String Bool
  log : List String
  hmacCalls : Nat
deriving DecidableEq, Repr

/-- The verifier `verifySignature(payload, signature, secretKey)` of the source, with its
`console.log` call and its single HMAC computation made explicit in the
outcome.  An empty `signature` is the only falsy value of the `string`
parameter, so `if (!signature)` is the test against `""`. -/
def verifySignatureFull (payload : List Nat) (signature secretKey : String) :
    VerifyOutcome :=
  if signature = "" then ⟨Except.ok false, [], 0⟩
  else
    let digest := strBytes ( sigPrefix ++ computedSignature payload secretKey)
    let signatureBuffer := strBytes signature
    if signatureBuffer.length ≠ digest.length ∨
        timingSafeEqual digest signatureBuffer = false then
      ⟨Except.error "The signature is invalid.", [], 1⟩
    else
      ⟨Except.ok true, ["The signature is valid"], 1⟩

/-- The value/error behaviour of `verifySignature`. -/
def verifySignature (payload : List Nat) (signature secretKey : String) :
    Except String Bool :=
  (verifySignatureFull payload signature secretKey).result

/-! ## The REST client (`ChargilyClient`) -/

/-- The client mode, a union of the literal types `test` and `live`. -/
inductive Mode where
  | test : Mode
  | live : Mode
deriving DecidableEq, Repr

/-- The constructor options interface `ChargilyClientOptions`. -/
structure ChargilyClientOptions where
  api_key : String
  mode : Mode
deriving DecidableEq, Repr

/-- The private state of a `ChargilyClient`. -/
structure ChargilyClient where
  api_key : String
  base_url : String
deriving DecidableEq, Repr

/-- Modelled from the spec: the `consts` module defining `CHARGILY_TEST_URL`
is not among the sources; the spec only requires a dedicated test base URL,
so the constant is an abstract placeholder value. -/
def CHARGILY_TEST_URL : String := "test base URL"

/-- Modelled from the spec: the `consts` module defining `CHARGILY_LIVE_URL`
is not among the sources; the spec only requires a live base URL distinct
from the test one, so the constant is an abstract placeholder value. -/
def CHARGILY_LIVE_URL : String := "live base URL"

/-- The `ChargilyClient` constructor. -/
def mkChargilyClient (options : ChargilyClientOptions) : ChargilyClient :=
  ⟨options.api_key,
   if options.mode = Mode.test then CHARGILY_TEST_URL else CHARGILY_LIVE_URL⟩

/-- An HTTP request as assembled by `ChargilyClient.request`; the body is
kept in structured form, its JSON serialization being external. -/
structure HttpRequest (α : Type) where
  url : String
  method : String
  headers : List (String × String)
  body : Option α
deriving DecidableEq, Repr

/-- An HTTP response as observed by `ChargilyClient.request`; `body` is the
raw response text, its JSON parsing being external. -/
structure HttpResponse where
  status : Nat
  statusText : String
  body : String
deriving DecidableEq, Repr

/-- The field `Response.ok` of the Fetch standard: status in the range 200 to 299. -/
def responseOk (status : Nat) : Bool := 200 ≤ status && status ≤ 299

/-- The error thrown for a non-2xx response: the inner
`API request failed …` error as re-wrapped by the `catch` block into
`Failed to make API request: ${error}`. -/
def apiErrorMessage (resp : HttpResponse) : String :=
  "Failed to make API request: Error: API request failed with status " ++
    toString resp.status ++ ": " ++ resp.statusText

/-- The request object built by `ChargilyClient.request`: URL
`${base_url}/${endpoint}`, the bearer-token and content-type headers, and
the optional body. -/
def buildRequest (c : ChargilyClient) (endpoint method : String)
    (body : Option α) : HttpRequest α :=
  ⟨c.base_url ++ "/" ++ endpoint, method,
   [("Authorization", "Bearer " ++ c.api_key),
    ("Content-Type", "application/json")], body⟩

/-- The method `ChargilyClient.request`, with the network modelled as a function
`fetch0` from the built request to the response it produces. -/
def ChargilyClient.request (c : ChargilyClient) (endpoint method : String)
    (body : Option α) (fetch0 : HttpRequest α → HttpResponse) :
    Except String String :=
  let resp := fetch0 (buildRequest c endpoint method body)
  if responseOk resp.status then Except.ok resp.body
  else Except.error (apiErrorMessage resp)

/-! ## `createCheckout` and its validation -/

/-- The interface `CheckoutItemParams`. -/
structure CheckoutItemParams where
  price : String
  quantity : Nat
deriving DecidableEq, Repr

/-- The checkout locale, a union of the literals `ar`, `en`, `fr`; the original name `Locale`
is already taken in Lean. -/
inductive CheckoutLocale where
  | ar : CheckoutLocale
  | en : CheckoutLocale
  | fr : CheckoutLocale
deriving DecidableEq, Repr

/-- The interface `CreateCheckoutParams`; optional fields are `Option`s, `metadata`
is kept as key-value pairs. -/
structure CreateCheckoutParams where
  items : Option (List CheckoutItemParams)
  amount : Option Nat
  currency : Option String
  payment_method : Option String
  success_url : String
  failure_url : Option String
  webhook_endpoint : Option String
  description : Option String
  locale : Option CheckoutLocale
  pass_fees_to_customer : Option Bool
  customer_id : Option String
  shipping_address : Option String
  collect_shipping_address : Option Bool
  metadata : Option (List (String × String))
deriving DecidableEq, Repr

/-- JavaScript `String.prototype.startsWith`. -/
def jsStartsWith (s pre : String) : Bool := pre.data.isPrefixOf s.data

/-- JavaScript falsiness of an optional number (`undefined` and `0`). -/
def jsFalsyNum : Option Nat → Bool
  | none => true
  | some n => n == 0

/-- JavaScript falsiness of an optional string (`undefined` and `""`). -/
def jsFalsyStr : Option String → Bool
  | none => true
  | some s => s == ""

/-- The method `ChargilyClient.createCheckout` up to the point where the HTTP request
leaves the client: either a thrown validation error, or the request that
`this.request` builds for the `checkouts` endpoint with method POST. -/
def ChargilyClient.createCheckout (c : ChargilyClient)
    (checkout_data : CreateCheckoutParams) :
    Except String (HttpRequest CreateCheckoutParams) :=
  if jsStartsWith checkout_data.success_url "http" = false ∧
      jsStartsWith checkout_data.success_url "https" = false then
    Except.error "Invalid success_url, it must begin with http or https."
  else if checkout_data.items = none ∧
      (jsFalsyNum checkout_data.amount = true ∨
       jsFalsyStr checkout_data.currency = true) then
    Except.error "The items field is required when amount and currency are not present."
  else
    Except.ok (buildRequest c "checkouts" "POST" (some checkout_data))

/-! ## Basic lemmas about the embedding -/

set_option maxRecDepth 100000

/-- The length of a string is the length of its character list. -/
theorem string_length_data (s : String) : s.length = s.data.length := by
  cases s
  rfl

/-- A string is empty exactly when its character list is. -/
theorem string_eq_empty_iff (s : String) : s = "" ↔ s.data = [] := by
  rw [String.ext_iff]

/-- Prepending the (empty) signature prefix changes nothing. -/
theorem sigPrefix_append (s : String) : sigPrefix ++ s = s := by
  apply String.ext
  rw [String.data_append]
  rfl

/-! ### The hex digest: 64 lowercase hex characters -/

/-- The hex digit of each nibble is one of the sixteen lowercase hex digits. -/
theorem hexDigit_mem (n : Nat) (hn : n < 16) : hexDigit n ∈ hexDigitChars := by
  interval_cases n <;> decide

/-- Every character produced by `hexChars` is a lowercase hex digit. -/
theorem hexChars_subset (bs : List Nat) :
    ∀ c ∈ hexChars bs, c ∈ hexDigitChars := by
  induction bs with
  | nil => intro c hc; cases hc
  | cons b rest ih =>
      intro c hc
      rw [hexChars, List.mem_append] at hc
      rcases hc with hc | hc
      · simp only [byteHex, List.mem_cons, List.not_mem_nil, or_false] at hc
        rcases hc with rfl | rfl
        · exact hexDigit_mem _ (Nat.mod_lt _ (by norm_num))
        · exact hexDigit_mem _ (Nat.mod_lt _ (by norm_num))
      · exact ih c hc

/-- Hex digits are ASCII characters. -/
theorem hexDigitChars_ascii : ∀ c ∈ hexDigitChars, c.toNat < 0x80 := by decide

/-- The function `hexChars` yields two characters per byte. -/
theorem hexChars_length (bs : List Nat) : (hexChars bs).length = 2 * bs.length := by
  induction bs with
  | nil => rfl
  | cons b rest ih =>
      rw [hexChars, List.length_append, ih]
      simp [byteHex]
      omega

/-- The serialized hash state is 32 bytes long. -/
theorem hashBytes_length (st : Hash8) : (hashBytes st).length = 32 := by
  simp [hashBytes, wordBytes]

/-- A SHA-256 digest is 32 bytes long. -/
theorem sha256_length (msg : List Nat) : (sha256 msg).length = 32 := by
  rw [sha256]
  exact hashBytes_length _

/-- An HMAC-SHA256 digest is 32 bytes long. -/
theorem hmacSha256_length (key msg : List Nat) :
    (hmacSha256 key msg).length = 32 := by
  rw [hmacSha256]
  exact sha256_length _

/-- The computed hex signature has exactly 64 characters. -/
theorem computedSignature_length (p : List Nat) (k : String) :
    (computedSignature p k).length = 64 := by
  rw [computedSignature, hexOfBytes, String.length_mk, hexChars_length,
      hmacSha256_length]

/-- The computed hex signature is never the empty string. -/
theorem computedSignature_ne_empty (p : List Nat) (k : String) :
    computedSignature p k ≠ "" := by
  intro h
  have := computedSignature_length p k
  rw [h] at this
  exact absurd this (by decide)

/-! ### UTF-8 facts -/

/-- An ASCII code point encodes to the single identical byte. -/
theorem utf8EncodeChar_ascii (c : Nat) (h : c < 0x80) :
    utf8EncodeChar c = [c] := by
  rw [utf8EncodeChar, if_pos h]

/-- A list of ASCII characters UTF-8-encodes to one byte per character. -/
theorem utf8Encode_length_ascii (l : List Char)
    (h : ∀ c ∈ l, c.toNat < 0x80) : (utf8Encode l).length = l.length := by
  induction l with
  | nil => rfl
  | cons c cs ih =>
      rw [utf8Encode, List.length_append,
          utf8EncodeChar_ascii _ (h c (List.mem_cons_self c cs)),
          ih (fun d hd => h d (List.mem_cons_of_mem c hd))]
      simp only [List.length_singleton, List.length_cons, List.length_nil]
      omega

/-- The UTF-8 byte length of the computed hex signature is 64. -/
theorem strBytes_computedSignature_length (p : List Nat) (k : String) :
    (strBytes (computedSignature p k)).length = 64 := by
  rw [strBytes, utf8Encode_length_ascii, ← string_length_data,
      computedSignature_length]
  intro c hc
  exact hexDigitChars_ascii c
    (hexChars_subset _ c (by rw [computedSignature, hexOfBytes] at hc; exact hc))

/-! ### The constant-time comparison -/

/-- A bitwise OR is zero exactly when both operands are. -/
theorem nat_lor_eq_zero_iff (m n : Nat) : m ||| n = 0 ↔ m = 0 ∧ n = 0 := by
  constructor
  · intro h
    constructor
    · by_contra hm
      obtain ⟨i, hi⟩ := Nat.ne_zero_implies_bit_true hm
      have hbit : (m ||| n).testBit i = true := by
        rw [Nat.testBit_or, hi]
        rfl
      rw [h, Nat.zero_testBit] at hbit
      cases hbit
    · by_contra hn
      obtain ⟨i, hi⟩ := Nat.ne_zero_implies_bit_true hn
      have hbit : (m ||| n).testBit i = true := by
        rw [Nat.testBit_or, hi, Bool.or_true]
      rw [h, Nat.zero_testBit] at hbit
      cases hbit
  · rintro ⟨rfl, rfl⟩
    rfl

/-- An OR-fold is zero exactly when the seed and every element are zero. -/
theorem foldl_lor_eq_zero_iff (l : List Nat) :
    ∀ acc, (l.foldl Nat.lor acc = 0) ↔ (acc = 0 ∧ ∀ x ∈ l, x = 0) := by
  induction l with
  | nil => intro acc; simp
  | cons x xs ih =>
      intro acc
      rw [List.foldl_cons, ih]
      have hlor : Nat.lor acc x = acc ||| x := rfl
      rw [hlor, nat_lor_eq_zero_iff]
      constructor
      · rintro ⟨⟨h1, h2⟩, h3⟩
        exact ⟨h1, fun y hy => by
          rcases List.mem_cons.mp hy with rfl | hy
          · exact h2
          · exact h3 y hy⟩
      · rintro ⟨h1, h2⟩
        exact ⟨⟨h1, h2 x (List.mem_cons_self x xs)⟩,
          fun y hy => h2 y (List.mem_cons_of_mem x hy)⟩

/-- For equal-length byte sequences the constant-time comparison decides
equality. -/
theorem timingSafeEqual_eq_true_iff (a b : List Nat)
    (h : a.length = b.length) : timingSafeEqual a b = true ↔ a = b := by
  rw [timingSafeEqual, beq_iff_eq, foldl_lor_eq_zero_iff]
  simp only [true_and]
  induction a generalizing b with
  | nil =>
      cases b with
      | nil => simp
      | cons y ys => cases h
  | cons x xs ih =>
      cases b with
      | nil => cases h
      | cons y ys =>
          rw [List.zipWith_cons_cons]
          constructor
          · intro hz
            have hx : x = y := Nat.xor_eq_zero.mp
              (hz _ (List.mem_cons_self _ _))
            have hrest : xs = ys := by
              have hlen : xs.length = ys.length := by
                simpa using h
              exact (ih ys hlen).mp (fun z hz2 => hz z (List.mem_cons_of_mem _ hz2))
            rw [hx, hrest]
          · intro he
            injection he with he1 he2
            intro z hz
            rcases List.mem_cons.mp hz with rfl | hz2
            · rw [he1]
              exact Nat.xor_self y
            · have hlen : xs.length = ys.length := by
                simpa using h
              exact (ih ys hlen).mpr he2 z hz2

/-- The constant-time comparison accepts a sequence against itself. -/
theorem timingSafeEqual_self (a : List Nat) : timingSafeEqual a a = true := by
  exact (timingSafeEqual_eq_true_iff a a rfl).mpr rfl

/-! ### Injectivity of UTF-8 -/

/-- The UTF-8 encoding of a character is never empty. -/
theorem utf8EncodeChar_ne_nil (c : Nat) : utf8EncodeChar c ≠ [] := by
  rw [utf8EncodeChar]
  split_ifs <;> simp

/-- UTF-8-encoded characters can be peeled off unambiguously: the first
byte of an encoding determines its branch, and the bytes determine the
code point. -/
theorem utf8EncodeChar_append_inj {c d : Nat} {r r' : List Nat}
    (h : utf8EncodeChar c ++ r = utf8EncodeChar d ++ r') : c = d ∧ r = r' := by
  rw [utf8EncodeChar] at h
  rw [utf8EncodeChar] at h
  split_ifs at h <;>
    simp only [List.cons_append, List.nil_append, List.cons.injEq] at h <;>
    first
      | (exact absurd h.1 (by omega))
      | (obtain ⟨e1, h⟩ := h
         first
           | (obtain ⟨e2, h⟩ := h
              first
                | (obtain ⟨e3, h⟩ := h
                   first
                     | (obtain ⟨e4, h⟩ := h
                        exact ⟨by omega, h⟩)
                     | exact ⟨by omega, h⟩)
                | exact ⟨by omega, h⟩)
           | exact ⟨by omega, h⟩)

/-- UTF-8 encoding of character sequences is injective. -/
theorem utf8Encode_inj : ∀ l1 l2 : List Char,
    utf8Encode l1 = utf8Encode l2 → l1 = l2 := by
  intro l1
  induction l1 with
  | nil =>
      intro l2 h
      cases l2 with
      | nil => rfl
      | cons d ds =>
          rw [utf8Encode, utf8Encode] at h
          exact absurd h.symm (by
            intro hcontra
            exact utf8EncodeChar_ne_nil d.toNat
              (List.append_eq_nil.mp hcontra).1)
  | cons c cs ih =>
      intro l2 h
      cases l2 with
      | nil =>
          rw [utf8Encode, utf8Encode] at h
          exact absurd h (by
            intro hcontra
            exact utf8EncodeChar_ne_nil c.toNat
              (List.append_eq_nil.mp hcontra).1)
      | cons d ds =>
          rw [utf8Encode, utf8Encode] at h
          obtain ⟨hcd, hrest⟩ := utf8EncodeChar_append_inj h
          have hc : c = d := by
            have : Char.ofNat c.toNat = Char.ofNat d.toNat := by rw [hcd]
            rwa [Char.ofNat_toNat, Char.ofNat_toNat] at this
          rw [hc, ih ds hrest]

/-- The byte view of strings is injective. -/
theorem strBytes_inj (s t : String) (h : strBytes s = strBytes t) : s = t := by
  apply String.ext
  exact utf8Encode_inj _ _ h

/-! ## Behaviour of `verifySignature` -/

/-- An empty signature short-circuits: `false` is returned, nothing is
logged, and no HMAC digest is computed. -/
theorem verifySignatureFull_empty (p : List Nat) (k : String) :
    verifySignatureFull p "" k = ⟨Except.ok false, [], 0⟩ := by
  rw [verifySignatureFull, if_pos rfl]

/-- A matching signature verifies: `true` is returned, the success line is
logged, and exactly one HMAC digest is computed. -/
theorem verifySignatureFull_valid (p : List Nat) (k : String) :
    verifySignatureFull p (computedSignature p k) k =
      ⟨Except.ok true, ["The signature is valid"], 1⟩ := by
  rw [verifySignatureFull, if_neg (computedSignature_ne_empty p k)]
  rw [if_neg]
  intro hbad
  rw [sigPrefix_append] at hbad
  rcases hbad with hlen | hts
  · exact hlen rfl
  · rw [timingSafeEqual_self] at hts
    cases hts

/-- A non-empty, non-matching signature throws `The signature is
invalid.` after computing one HMAC digest and logging nothing. -/
theorem verifySignatureFull_mismatch (p : List Nat) (s k : String)
    (hne : s ≠ "") (hmis : s ≠ computedSignature p k) :
    verifySignatureFull p s k =
      ⟨Except.error "The signature is invalid.", [], 1⟩ := by
  rw [verifySignatureFull, if_neg hne, if_pos]
  rw [sigPrefix_append]
  by_cases hlen : (strBytes s).length = (strBytes (computedSignature p k)).length
  · right
    by_contra hts
    rw [Bool.not_eq_false] at hts
    have heq := (timingSafeEqual_eq_true_iff _ _ hlen.symm).mp hts
    exact hmis (strBytes_inj s (computedSignature p k) heq.symm)
  · left
    exact hlen

/-- Rejection of signatures of the wrong byte length: with 64-byte digests
impossible to match, a non-matching or empty signature never verifies. -/
theorem verifySignature_wrong_length (p : List Nat) (s k : String)
    (h : (strBytes s).length ≠ 64) :
    verifySignature p s k ≠ Except.ok true := by
  by_cases hne : s = ""
  · subst hne
    rw [verifySignature, verifySignatureFull_empty]
    intro hcontra
    cases hcontra
  · have hmis : s ≠ computedSignature p k := by
      intro he
      rw [he, strBytes_computedSignature_length] at h
      exact h rfl
    rw [verifySignature, verifySignatureFull_mismatch p s k hne hmis]
    intro hcontra
    cases hcontra

/-! ## Behaviour of the client -/

/-- A string starting with `https` also starts with `http`. -/
theorem jsStartsWith_https_http (s : String)
    (h : jsStartsWith s "https" = true) : jsStartsWith s "http" = true := by
  rw [jsStartsWith, List.isPrefixOf_iff_prefix] at h ⊢
  exact List.IsPrefix.trans (by decide) h

/-! ## The claims -/

/-- C1: for every payload `p` and secret key `k`, `verifySignature` applied
to the lowercase hex HMAC-SHA256 digest of `p` under `k` returns `true`. -/
theorem claim_C1 (p : List Nat) (k : String) :
    verifySignature p (computedSignature p k) k = Except.ok true := by
  rw [verifySignature, verifySignatureFull_valid]

/-- C2: a signature other than the lowercase hex HMAC-SHA256 digest of the
payload under the key either makes `verifySignature` return `false` or
throw; it never returns `true`. -/
theorem claim_C2 (p : List Nat) (k s : String) (hne : s ≠ "")
    (hmis : s ≠ computedSignature p k) :
    (verifySignature p s k = Except.ok false ∨
      verifySignature p s k = Except.error "The signature is invalid.") ∧
    verifySignature p s k ≠ Except.ok true := by
  rw [verifySignature, verifySignatureFull_mismatch p s k hne hmis]
  constructor
  · right
    rfl
  · intro hcontra
    cases hcontra

/-- Closed instance of C2: the concrete signature `x` is rejected. -/
theorem claim_C2_witness :
    (verifySignature (strBytes "p") "x" "k" = Except.ok false ∨
      verifySignature (strBytes "p") "x" "k" =
        Except.error "The signature is invalid.") ∧
    verifySignature (strBytes "p") "x" "k" ≠ Except.ok true :=
  claim_C2 (strBytes "p") "k" "x" (by decide) (by decide)

/-- C3: the mixed failure discipline of `verifySignature`: an empty
signature returns the boolean `false`, whereas a present non-matching
signature throws, and the two outcomes are distinguishable. -/
theorem claim_C3 (p : List Nat) (k : String) :
    verifySignature p "" k = Except.ok false ∧
    (∀ s, s ≠ "" → s ≠ computedSignature p k →
      verifySignature p s k = Except.error "The signature is invalid.") ∧
    (∀ s, s ≠ "" → s ≠ computedSignature p k →
      verifySignature p "" k ≠ verifySignature p s k) := by
  refine ⟨?_, ?_, ?_⟩
  · rw [verifySignature, verifySignatureFull_empty]
  · intro s hne hmis
    rw [verifySignature, verifySignatureFull_mismatch p s k hne hmis]
  · intro s hne hmis
    rw [verifySignature, verifySignature, verifySignatureFull_empty,
        verifySignatureFull_mismatch p s k hne hmis]
    intro hcontra
    cases hcontra

/-- Closed instance of C3: empty signature returns `false`, the concrete
signature `q` throws. -/
theorem claim_C3_witness :
    verifySignature (strBytes "p") "" "k" = Except.ok false ∧
    verifySignature (strBytes "p") "q" "k" =
      Except.error "The signature is invalid." :=
  ⟨(claim_C3 (strBytes "p") "k").1,
   (claim_C3 (strBytes "p") "k").2.1 "q" (by decide) (by decide)⟩

/-- C4: an empty signature makes `verifySignature` return `false`
immediately: no HMAC digest is computed, nothing is logged, and no
exception is raised. -/
theorem claim_C4 (p : List Nat) (k : String) :
    verifySignatureFull p "" k = ⟨Except.ok false, [], 0⟩ :=
  verifySignatureFull_empty p k

/-- C6: the digest compared against the signature is the hex HMAC-SHA256
of the payload under the key: 64 lowercase hex characters, no prefix
(`sigPrefix` is empty); consequently any signature whose UTF-8 byte length
differs from 64 is rejected. -/
theorem claim_C6 (p : List Nat) (k : String) :
    (computedSignature p k).length = 64 ∧
    (∀ c ∈ (computedSignature p k).data, c ∈ hexDigitChars) ∧
    sigPrefix = "" ∧
    (∀ s, (strBytes s).length ≠ 64 →
      verifySignature p s k ≠ Except.ok true) := by
  refine ⟨computedSignature_length p k, ?_, rfl, ?_⟩
  · intro c hc
    exact hexChars_subset _ c hc
  · intro s hlen
    exact verifySignature_wrong_length p s k hlen

/-- Closed instance of C6: the 3-character signature `abc` is rejected. -/
theorem claim_C6_witness :
    (strBytes "abc").length ≠ 64 ∧
    verifySignature (strBytes "p") "abc" "k" ≠ Except.ok true :=
  ⟨by decide, (claim_C6 (strBytes "p") "k").2.2.2 "abc" (by decide)⟩

/-- C7 (counterexample to the claim as stated): a successful invocation of
`verifySignature` does perform I/O beyond the hashing computation — it
writes `The signature is valid` to the console, so it is not free of
outside effects. -/
theorem claim_C7_counterexample :
    (verifySignatureFull (strBytes "checkout.paid:chk_1")
        "4b31ace360cd554a4c1d627934a819fe05f05ca64443ba111afddc8d4cf198ad"
        "whsec_test123").result = Except.ok true ∧
    (verifySignatureFull (strBytes "checkout.paid:chk_1")
        "4b31ace360cd554a4c1d627934a819fe05f05ca64443ba111afddc8d4cf198ad"
        "whsec_test123").log ≠ [] := by
  constructor
  · decide
  · decide

/-- C7 (amended): `verifySignature` is deterministic — its outcome is a
function of the inputs alone — but its only outside effect is one console
log line, written exactly when verification succeeds. -/
theorem claim_C7 (p : List Nat) (s k : String) :
    ((verifySignatureFull p s k).result = Except.ok true →
      (verifySignatureFull p s k).log = ["The signature is valid"]) ∧
    ((verifySignatureFull p s k).result ≠ Except.ok true →
      (verifySignatureFull p s k).log = []) := by
  by_cases hs : s = ""
  · subst hs
    rw [verifySignatureFull_empty]
    exact ⟨fun h => absurd h (by decide), fun _ => rfl⟩
  · by_cases hm : s = computedSignature p k
    · rw [hm, verifySignatureFull_valid]
      exact ⟨fun _ => rfl, fun h => absurd rfl h⟩
    · rw [verifySignatureFull_mismatch p s k hs hm]
      exact ⟨fun h => absurd h (by decide), fun _ => rfl⟩

/-- Closed instance of C7 (amended): a failing invocation logs nothing. -/
theorem claim_C7_witness :
    (verifySignatureFull (strBytes "p") "" "k").log = [] :=
  (claim_C7 (strBytes "p") "" "k").2 (by decide)

/-- C8: `createCheckout` validation.  A `success_url` that does not start
with `http` throws (the second test against the `https` prefix is subsumed, since an
`https` prefix entails an `http` prefix); absent `items` together with an
absent `amount` or `currency` throws; and any `success_url` that starts
with `http` — well-formed URL or not — passes the URL check.  A thrown
validation error yields no HTTP request. -/
theorem claim_C8 (c : ChargilyClient) (d : CreateCheckoutParams) :
    (jsStartsWith d.success_url "http" = false →
      ChargilyClient.createCheckout c d =
        Except.error "Invalid success_url, it must begin with http or https.") ∧
    (d.items = none → (d.amount = none ∨ d.currency = none) →
      ∃ msg, ChargilyClient.createCheckout c d = Except.error msg) ∧
    (jsStartsWith d.success_url "http" = true →
      ChargilyClient.createCheckout c d ≠
        Except.error "Invalid success_url, it must begin with http or https.") := by
  refine ⟨?_, ?_, ?_⟩
  · intro hhttp
    have hhttps : jsStartsWith d.success_url "https" = false := by
      by_contra hc
      rw [Bool.not_eq_false] at hc
      rw [jsStartsWith_https_http d.success_url hc] at hhttp
      cases hhttp
    rw [ChargilyClient.createCheckout, if_pos ⟨hhttp, hhttps⟩]
  · intro hitems hac
    by_cases hurl : jsStartsWith d.success_url "http" = false ∧
        jsStartsWith d.success_url "https" = false
    · exact ⟨_, by rw [ChargilyClient.createCheckout, if_pos hurl]⟩
    · have hcond : d.items = none ∧
          (jsFalsyNum d.amount = true ∨ jsFalsyStr d.currency = true) := by
        refine ⟨hitems, ?_⟩
        rcases hac with ha | hc
        · left
          rw [ha]
          rfl
        · right
          rw [hc]
          rfl
      exact ⟨_, by
        rw [ChargilyClient.createCheckout, if_neg hurl, if_pos hcond]⟩
  · intro hhttp
    have hcond : ¬(jsStartsWith d.success_url "http" = false ∧
        jsStartsWith d.success_url "https" = false) := by
      intro hcontra
      rw [hhttp] at hcontra
      cases hcontra.1
    rw [ChargilyClient.createCheckout, if_neg hcond]
    by_cases hitems : d.items = none ∧
        (jsFalsyNum d.amount = true ∨ jsFalsyStr d.currency = true)
    · rw [if_pos hitems]
      intro hcontra
      injection hcontra with hmsg
      exact absurd hmsg (by decide)
    · rw [if_neg hitems]
      intro hcontra
      cases hcontra

/-- Closed instance of C8: a `ftp://` URL throws the URL error, a bare
`httpx` passes the URL check (with items present the request is issued),
and missing items with missing amount throws. -/
theorem claim_C8_witness :
    ChargilyClient.createCheckout (mkChargilyClient ⟨"key", Mode.test⟩)
        ⟨none, none, none, none, "ftp://example.com", none, none, none,
         none, none, none, none, none, none⟩ =
      Except.error "Invalid success_url, it must begin with http or https." ∧
    ChargilyClient.createCheckout (mkChargilyClient ⟨"key", Mode.test⟩)
        ⟨some [⟨"price_1", 1⟩], none, none, none, "httpx", none, none, none,
         none, none, none, none, none, none⟩ ≠
      Except.error "Invalid success_url, it must begin with http or https." ∧
    ∃ msg, ChargilyClient.createCheckout (mkChargilyClient ⟨"key", Mode.test⟩)
        ⟨none, none, some "dzd", none, "https://example.com", none, none,
         none, none, none, none, none, none, none⟩ = Except.error msg :=
  ⟨(claim_C8 _ _).1 (by decide),
   (claim_C8 _ _).2.2 (by decide),
   (claim_C8 _ _).2.1 rfl (Or.inl rfl)⟩

/-- C9: any response with a non-2xx status makes `ChargilyClient.request`
— and with it every public method, all of which delegate to it with their
own endpoint, method and body — throw rather than return the body. -/
theorem claim_C9 {α : Type} (c : ChargilyClient) (endpoint method : String)
    (body : Option α) (fetch0 : HttpRequest α → HttpResponse)
    (h : responseOk (fetch0 (buildRequest c endpoint method body)).status = false) :
    ChargilyClient.request c endpoint method body fetch0 =
      Except.error
        (apiErrorMessage (fetch0 (buildRequest c endpoint method body))) ∧
    ∀ b, ChargilyClient.request c endpoint method body fetch0 ≠ Except.ok b := by
  constructor
  · rw [ChargilyClient.request, if_neg]
    rw [h]
    intro hcontra
    cases hcontra
  · intro b
    rw [ChargilyClient.request, if_neg]
    · intro hcontra
      cases hcontra
    · rw [h]
      intro hcontra
      cases hcontra

/-- Closed instance of C9: a 500 response surfaces as the wrapped thrown
error. -/
theorem claim_C9_witness :
    ChargilyClient.request (mkChargilyClient ⟨"k", Mode.live⟩) "balance" "GET"
        (none : Option String)
        (fun _ => ⟨500, "Internal Server Error", "oops"⟩) =
      Except.error
        "Failed to make API request: Error: API request failed with status 500: Internal Server Error" := by
  have h := (claim_C9 (mkChargilyClient ⟨"k", Mode.live⟩) "balance" "GET"
    (none : Option String) (fun _ => ⟨500, "Internal Server Error", "oops"⟩)
    (by decide)).1
  exact h.trans (by decide)

/-- C10: every request built by the client targets
`${base_url}/${endpoint}` where `base_url` is the test base URL exactly in
`test` mode and the live base URL otherwise, and carries the
`Authorization: Bearer <api_key>` header. -/
theorem claim_C10 (opts : ChargilyClientOptions) (endpoint method : String)
    (α : Type) (body : Option α) :
    (buildRequest (mkChargilyClient opts) endpoint method body).url =
      (if opts.mode = Mode.test then CHARGILY_TEST_URL else CHARGILY_LIVE_URL)
        ++ "/" ++ endpoint ∧
    ((mkChargilyClient opts).base_url = CHARGILY_TEST_URL ↔
      opts.mode = Mode.test) ∧
    ("Authorization", "Bearer " ++ opts.api_key) ∈
      (buildRequest (mkChargilyClient opts) endpoint method body).headers := by
  refine ⟨rfl, ?_, List.mem_cons_self _ _⟩
  rw [mkChargilyClient]
  cases opts.mode with
  | test => simp
  | live => simp [CHARGILY_TEST_URL, CHARGILY_LIVE_URL]

/-! ## Validation of the hash embedding against published test vectors -/

/-- FIPS 180-4 test vector: SHA-256 of the empty message. -/
theorem sha256_empty_vector :
    hexOfBytes (sha256 []) =
      "e3b0c44298fc1c149afbf4c8996fb92427ae41e4649b934ca495991b7852b855" := by
  decide

/-- FIPS 180-4 test vector: SHA-256 of the three-byte message `abc`. -/
theorem sha256_abc_vector :
    hexOfBytes (sha256 (strBytes "abc")) =
      "ba7816bf8f01cfea414140de5dae2223b00361a396177a9cb410ff61f20015ad" := by
  decide

/-- Classic HMAC-SHA256 test vector (key `key`, quick-brown-fox message). -/
theorem hmacSha256_fox_vector :
    hexOfBytes (hmacSha256 (strBytes "key")
        (strBytes "The quick brown fox jumps over the lazy dog")) =
      "f7bc83f430538424b13298e6aa6fb143ef4d59a14946175997479dbc2d1a3cd8" := by
  decide
